import Mathlib

/-!
Shallow embedding of `src/minesweeper/minesweeper.py`: the `Sentence` and
`MinesweeperAI` classes (the knowledge-based deduction engine).  Python sets
of cells become `Finset Cell`, the knowledge base (a Python list of mutable
`Sentence` objects) becomes a `List Sentence` threaded functionally, and the
loop of `add_knowledge` that iterates over `self.knowledge` while removing
elements is embedded index-by-index, exactly reproducing CPython list
iterator semantics.  `print` calls in the source do not touch the state and
are omitted.  Randomness (`random.randrange`) is modelled by an injected
stream of numbers, and the unbounded retry loop of `make_random_move` by a
fuel parameter whose exhaustion is reported as `none`.
-/

/-- A board cell, a Python tuple `(row, col)` of integers. -/
abbrev Cell : Type := ℤ × ℤ

/-- Row-major order on cells, used as the canonical iteration order for the
Python `for ... in set` loops (whose order CPython leaves unspecified; every
such loop in the source has an order-independent effect). -/
def cellLE (a b : Cell) : Prop :=
  a.1 < b.1 ∨ (a.1 = b.1 ∧ a.2 ≤ b.2)

instance : DecidableRel cellLE := fun a b =>
  inferInstanceAs (Decidable (a.1 < b.1 ∨ (a.1 = b.1 ∧ a.2 ≤ b.2)))

instance : IsTrans Cell cellLE :=
  ⟨fun a b c hab hbc => by unfold cellLE at *; omega⟩

instance : IsAntisymm Cell cellLE :=
  ⟨fun a b hab hba => by
    have h1 : a.1 = b.1 := by unfold cellLE at *; omega
    have h2 : a.2 = b.2 := by unfold cellLE at *; omega
    exact Prod.ext h1 h2⟩

instance : IsTotal Cell cellLE :=
  ⟨fun a b => by unfold cellLE; omega⟩

/-- The elements of a finite set of cells, listed in the canonical iteration
order (insertion sort, so that the list computes by structural recursion). -/
def cellList (t : Finset Cell) : List Cell :=
  Quot.liftOn t.val (fun l => l.insertionSort cellLE) (fun l₁ l₂ h =>
    List.eq_of_perm_of_sorted
      ((l₁.perm_insertionSort cellLE).trans (h.trans (l₂.perm_insertionSort cellLE).symm))
      (List.sorted_insertionSort cellLE l₁)
      (List.sorted_insertionSort cellLE l₂))

/-- Embeds class `Sentence`: a set of cells and a count of how many of them
are mines (`self.cells = set(cells)`, `self.count = count`). -/
structure Sentence where
  cells : Finset Cell
  count : ℤ
deriving DecidableEq

namespace Sentence

/-- Embeds `Sentence.known_mines`: starts from an empty set and, when
`len(self.cells) == self.count`, adds every cell of `self.cells` to it. -/
def known_mines (s : Sentence) : Finset Cell :=
  let mines : Finset Cell := ∅
  if (s.cells.card : ℤ) = s.count then
    (cellList s.cells).foldl (fun acc c => insert c acc) mines
  else
    mines

/-- Embeds `Sentence.known_safes`: starts from an empty set and, when
`self.count == 0`, adds every cell of `self.cells` to it. -/
def known_safes (s : Sentence) : Finset Cell :=
  let safe : Finset Cell := ∅
  if s.count = 0 then
    (cellList s.cells).foldl (fun acc c => insert c acc) safe
  else
    safe

/-- Embeds `Sentence.mark_mine`: if the cell is in `self.cells` it is
removed and the count decremented, returning 1; otherwise the sentence is
unchanged and 0 is returned. -/
def mark_mine (s : Sentence) (cell : Cell) : Sentence × ℤ :=
  if cell ∈ s.cells then
    (⟨s.cells.erase cell, s.count - 1⟩, 1)
  else
    (s, 0)

/-- Embeds `Sentence.mark_safe`: if the cell is in `self.cells` it is
removed (count unchanged), returning 1; otherwise 0. -/
def mark_safe (s : Sentence) (cell : Cell) : Sentence × ℤ :=
  if cell ∈ s.cells then
    (⟨s.cells.erase cell, s.count⟩, 1)
  else
    (s, 0)

end Sentence

/-- Embeds class `MinesweeperAI`: grid dimensions plus the four pieces of
mutable state set up in `__init__`. -/
structure MinesweeperAI where
  height : ℕ
  width : ℕ
  moves_made : Finset Cell
  mines : Finset Cell
  safes : Finset Cell
  knowledge : List Sentence
deriving DecidableEq

namespace MinesweeperAI

/-- Embeds `MinesweeperAI.__init__(height, width)`. -/
def init (height width : ℕ) : MinesweeperAI :=
  ⟨height, width, ∅, ∅, ∅, []⟩

/-- Embeds `MinesweeperAI.mark_mine`: adds the cell to `self.mines` and
calls `Sentence.mark_mine` on every sentence in `self.knowledge`. -/
def mark_mine (s : MinesweeperAI) (cell : Cell) : MinesweeperAI :=
  { s with
    mines := insert cell s.mines
    knowledge := s.knowledge.map (fun st => (st.mark_mine cell).1) }

/-- Embeds `MinesweeperAI.mark_safe`: adds the cell to `self.safes` and
calls `Sentence.mark_safe` on every sentence in `self.knowledge`. -/
def mark_safe (s : MinesweeperAI) (cell : Cell) : MinesweeperAI :=
  { s with
    safes := insert cell s.safes
    knowledge := s.knowledge.map (fun st => (st.mark_safe cell).1) }

/-- Embeds the neighbour-collection loop of `add_knowledge` (the nested
`for i`/`for j` loop building `current_knowledge_cells`).  The bounds check
is `0 <= i < self.height and 0 <= j < self.width`; the membership test in
the source is `if not (i, j) in (self.moves_made and self.safes)`, where
Python's `and` on sets returns `self.moves_made` when that set is empty and
`self.safes` otherwise. -/
def current_knowledge_cells (s : MinesweeperAI) (cell : Cell) : List Cell :=
  let guardSet : Finset Cell := if s.moves_made = ∅ then s.moves_made else s.safes
  [cell.1 - 1, cell.1, cell.1 + 1].flatMap (fun i =>
    [cell.2 - 1, cell.2, cell.2 + 1].filterMap (fun j =>
      if (i, j) = cell then none
      else if 0 ≤ i ∧ i < (s.height : ℤ) ∧ 0 ≤ j ∧ j < (s.width : ℤ) then
        if (i, j) ∉ guardSet then some (i, j) else none
      else none))

/-- Embeds the first `if` block of the deduction-loop body of
`add_knowledge` (`if known_safes:`): `self.safes.update(known_safes)` and
`self.knowledge.remove(sentence)` (remove the first equal element). -/
def knowledgeStepA (s : MinesweeperAI) (sentence : Sentence) : MinesweeperAI :=
  if sentence.known_safes ≠ ∅ then
    { s with
      safes := s.safes ∪ sentence.known_safes
      knowledge := s.knowledge.erase sentence }
  else s

/-- Embeds the second `if` block of the deduction-loop body of
`add_knowledge` (`if known_mines:`): `self.knowledge.remove(sentence)`
followed by `self.mark_mine(mine)` for every
`mine in known_mines.union(self.mines)` (the union is computed once, before
the inner loop, from `self.mines` at that point). -/
def knowledgeStepB (s : MinesweeperAI) (sentence : Sentence) : MinesweeperAI :=
  if sentence.known_mines ≠ ∅ then
    (cellList (sentence.known_mines ∪ s.mines)).foldl (fun t m => t.mark_mine m)
      { s with knowledge := s.knowledge.erase sentence }
  else s

/-- The whole body of the `for sentence in self.knowledge` deduction loop of
`add_knowledge`, run for one fetched sentence: `known_safes`/`known_mines`
are computed from the fetched (immutable) sentence value, then the two `if`
blocks run in order. -/
def knowledgeStep (s : MinesweeperAI) (sentence : Sentence) : MinesweeperAI :=
  knowledgeStepB (knowledgeStepA s sentence) sentence

/-- Embeds the Python `for sentence in self.knowledge` iteration of the
deduction loop in `add_knowledge` (source lines 281-307), at list index `i`.
The CPython iterator fetches index `i`, runs the body (which may remove
elements from and mutate the sentences of `self.knowledge`), then asks for
index `i + 1` of the mutated list, stopping when the index passes the end.
The fuel starts at the initial list length; since the body never lengthens
the list, the fuel never runs out before `i` passes the end of the list. -/
def knowledgeLoopAux : ℕ → ℕ → MinesweeperAI → MinesweeperAI
  | 0, _, s => s
  | fuel + 1, i, s =>
    if h : i < s.knowledge.length then
      knowledgeLoopAux fuel (i + 1) (knowledgeStep s (s.knowledge.get ⟨i, h⟩))
    else s

/-- Embeds the whole `for sentence in self.knowledge` deduction pass of
`add_knowledge`. -/
def knowledgeLoop (s : MinesweeperAI) : MinesweeperAI :=
  knowledgeLoopAux s.knowledge.length 0 s

/-- Embeds `MinesweeperAI.add_knowledge(cell, count)`: add the cell to
`moves_made`; `mark_safe` it if not already in `safes`; build
`current_knowledge_cells` and, if non-empty, append
`Sentence(current_knowledge_cells, count)` to the knowledge base; then run
the single deduction pass over `self.knowledge`.  The trailing `print`
statements of the source have no effect on the state. -/
def add_knowledge (s : MinesweeperAI) (cell : Cell) (count : ℤ) : MinesweeperAI :=
  let s1 := { s with moves_made := insert cell s.moves_made }
  let s2 := if cell ∉ s1.safes then s1.mark_safe cell else s1
  let ck := s2.current_knowledge_cells cell
  let s3 :=
    if ck.length ≠ 0 then
      { s2 with knowledge := s2.knowledge ++ [⟨ck.toFinset, count⟩] }
    else s2
  s3.knowledgeLoop

/-- Embeds `MinesweeperAI.make_safe_move`: copies `self.safes`, subtracts
`self.moves_made`, and returns `None` if the remainder is empty, otherwise
an arbitrary element of it (`set.pop`, modelled by the injected `choose`
function).  The method writes no attribute of `self`, so the state
component of the result is the input state. -/
def make_safe_move (s : MinesweeperAI) (choose : Finset Cell → Cell) :
    Option Cell × MinesweeperAI :=
  let safe_moves := s.safes
  let safe_moves := safe_moves \ s.moves_made
  if safe_moves.card = 0 then
    (none, s)
  else
    (some (choose safe_moves), s)

/-- Embeds the `while random_move in not_safe_moves` retry loop of
`make_random_move`.  `rand k` supplies the pair of `random.randrange`
draws of attempt `k` (reduced modulo height and width, as `randrange`
returns a value in range); `none` means the loop has not produced a cell
within `fuel` attempts. -/
def randomMoveLoop (s : MinesweeperAI) (rand : ℕ → ℕ × ℕ) :
    ℕ → ℕ → Option Cell
  | 0, _ => none
  | fuel + 1, k =>
    let random_move : Cell := (((rand k).1 % s.height : ℕ), ((rand k).2 % s.width : ℕ))
    if random_move ∈ s.moves_made ∪ s.mines then
      randomMoveLoop s rand fuel (k + 1)
    else
      some random_move

/-- Embeds `MinesweeperAI.make_random_move`: returns `None` when
`len(self.moves_made) == 56`; otherwise draws random cells until one is
outside `self.moves_made | self.mines`.  Result `some none` is Python's
`return None`; `some (some c)` is `return c`; `none` means the retry loop
has not terminated within `fuel` draws. -/
def make_random_move (s : MinesweeperAI) (rand : ℕ → ℕ × ℕ) (fuel : ℕ) :
    Option (Option Cell) :=
  if s.moves_made.card = 56 then
    some none
  else
    (randomMoveLoop s rand fuel 0).map some

end MinesweeperAI

/-- Runs a sequence of `add_knowledge` calls from a starting state. -/
def runCalls (s : MinesweeperAI) (calls : List (Cell × ℤ)) : MinesweeperAI :=
  calls.foldl (fun t p => t.add_knowledge p.1 p.2) s

/-- The set of all grid cells of a `height` by `width` board (used to state
the candidate set `all_cells - moves_made - mines` of the fallback-move
claim). -/
def allCells (height width : ℕ) : Finset Cell :=
  (Finset.range height).biUnion (fun i =>
    (Finset.range width).image (fun (j : ℕ) => ((i : ℤ), (j : ℤ))))

/-- A concrete element-choice function standing in for Python's `set.pop`:
the head of the set's list representation. -/
def chooseHead (t : Finset Cell) : Cell :=
  (cellList t).headD (0, 0)

/-! ### Helper lemmas -/

/-- The canonical listing of a finite set of cells is, as a multiset, the
set itself. -/
lemma cellList_coe (t : Finset Cell) : (cellList t : Multiset Cell) = t.val := by
  rcases t with ⟨m, hm⟩
  induction m using Quot.inductionOn with
  | h l =>
      exact (Multiset.coe_eq_coe).mpr (l.perm_insertionSort cellLE)

/-- Membership in the canonical listing agrees with set membership. -/
lemma mem_cellList {a : Cell} {t : Finset Cell} : a ∈ cellList t ↔ a ∈ t := by
  rw [← Multiset.mem_coe, cellList_coe]
  exact Iff.rfl

/-- Listing a finite set of cells and re-collecting the list gives the set
back. -/
lemma cellList_toFinset (t : Finset Cell) : (cellList t).toFinset = t := by
  ext a
  rw [List.mem_toFinset, mem_cellList]

/-- Folding `insert` over a list, starting from `m`, accumulates exactly
`m ∪ l.toFinset`. -/
lemma foldl_insert_eq_union (l : List Cell) :
    ∀ m : Finset Cell, l.foldl (fun acc c => insert c acc) m = m ∪ l.toFinset := by
  induction l with
  | nil =>
      intro m
      simp
  | cons a l ih =>
      intro m
      simp only [List.foldl_cons, ih, List.toFinset_cons]
      rw [Finset.insert_union, Finset.union_insert]

/-- A cell picked by `chooseHead` from a non-empty set belongs to the set. -/
lemma chooseHead_mem (t : Finset Cell) (ht : t ≠ ∅) : chooseHead t ∈ t := by
  unfold chooseHead
  cases h : cellList t with
  | nil =>
      exfalso
      apply ht
      have h2 : (cellList t).toFinset = t := cellList_toFinset t
      rw [h] at h2
      simpa using h2.symm
  | cons a l =>
      simp only [List.headD_cons]
      have ha : a ∈ cellList t := by
        rw [h]
        exact List.mem_cons_self a l
      exact mem_cellList.mp ha

/-- `MinesweeperAI.mark_mine` only inserts into `mines` and leaves `safes`
unchanged. -/
lemma mark_mine_fields (s : MinesweeperAI) (c : Cell) :
    (s.mark_mine c).mines = insert c s.mines ∧ (s.mark_mine c).safes = s.safes :=
  ⟨rfl, rfl⟩

/-- Folding `MinesweeperAI.mark_mine` over a list of cells grows `mines` and
leaves `safes` unchanged. -/
lemma foldl_mark_mine_spec (l : List Cell) :
    ∀ s : MinesweeperAI,
      s.mines ⊆ (l.foldl (fun t m => t.mark_mine m) s).mines ∧
      (l.foldl (fun t m => t.mark_mine m) s).safes = s.safes := by
  induction l with
  | nil =>
      intro s
      exact ⟨Finset.Subset.refl _, rfl⟩
  | cons a l ih =>
      intro s
      refine ⟨Finset.Subset.trans ?_ (ih (s.mark_mine a)).1, ?_⟩
      · rw [(mark_mine_fields s a).1]
        exact Finset.subset_insert _ _
      · rw [List.foldl_cons, (ih (s.mark_mine a)).2, (mark_mine_fields s a).2]

/-- The first deduction-step block keeps `mines` and can only grow `safes`. -/
lemma knowledgeStepA_spec (s : MinesweeperAI) (st : Sentence) :
    (MinesweeperAI.knowledgeStepA s st).mines = s.mines ∧ s.safes ⊆ (MinesweeperAI.knowledgeStepA s st).safes := by
  unfold MinesweeperAI.knowledgeStepA
  split_ifs with h
  · exact ⟨rfl, Finset.subset_union_left⟩
  · exact ⟨rfl, Finset.Subset.refl _⟩

/-- The second deduction-step block keeps `safes` and can only grow
`mines`. -/
lemma knowledgeStepB_spec (s : MinesweeperAI) (st : Sentence) :
    s.mines ⊆ (MinesweeperAI.knowledgeStepB s st).mines ∧ (MinesweeperAI.knowledgeStepB s st).safes = s.safes := by
  unfold MinesweeperAI.knowledgeStepB
  split_ifs with h
  · exact foldl_mark_mine_spec _ { s with knowledge := s.knowledge.erase st }
  · exact ⟨Finset.Subset.refl _, rfl⟩

/-- One whole deduction-loop body can only grow `mines` and `safes`. -/
lemma knowledgeStep_mono (s : MinesweeperAI) (st : Sentence) :
    s.mines ⊆ (MinesweeperAI.knowledgeStep s st).mines ∧ s.safes ⊆ (MinesweeperAI.knowledgeStep s st).safes := by
  unfold MinesweeperAI.knowledgeStep
  constructor
  · rw [← (knowledgeStepA_spec s st).1]
    exact (knowledgeStepB_spec (MinesweeperAI.knowledgeStepA s st) st).1
  · rw [(knowledgeStepB_spec (MinesweeperAI.knowledgeStepA s st) st).2]
    exact (knowledgeStepA_spec s st).2

/-- The deduction loop can only grow `mines` and `safes`. -/
lemma knowledgeLoopAux_mono :
    ∀ (fuel i : ℕ) (s : MinesweeperAI),
      s.mines ⊆ (MinesweeperAI.knowledgeLoopAux fuel i s).mines ∧
      s.safes ⊆ (MinesweeperAI.knowledgeLoopAux fuel i s).safes := by
  intro fuel
  induction fuel with
  | zero =>
      intro i s
      exact ⟨Finset.Subset.refl _, Finset.Subset.refl _⟩
  | succ n ih =>
      intro i s
      simp only [MinesweeperAI.knowledgeLoopAux]
      split
      · refine ⟨Finset.Subset.trans (knowledgeStep_mono s _).1 (ih (i + 1) _).1,
          Finset.Subset.trans (knowledgeStep_mono s _).2 (ih (i + 1) _).2⟩
      · exact ⟨Finset.Subset.refl _, Finset.Subset.refl _⟩

/-- The whole deduction pass can only grow `mines` and `safes`. -/
lemma knowledgeLoop_mono (s : MinesweeperAI) :
    s.mines ⊆ s.knowledgeLoop.mines ∧ s.safes ⊆ s.knowledgeLoop.safes :=
  knowledgeLoopAux_mono s.knowledge.length 0 s

/-- A single `add_knowledge` call can only grow `mines` and `safes`. -/
lemma add_knowledge_mono (s : MinesweeperAI) (cell : Cell) (count : ℤ) :
    s.mines ⊆ (s.add_knowledge cell count).mines ∧
    s.safes ⊆ (s.add_knowledge cell count).safes := by
  unfold MinesweeperAI.add_knowledge
  dsimp only
  split_ifs with h1 h2 h2 <;>
    refine ⟨Finset.Subset.trans ?_ (knowledgeLoop_mono _).1,
      Finset.Subset.trans ?_ (knowledgeLoop_mono _).2⟩ <;>
    simp [MinesweeperAI.mark_safe, Finset.subset_insert]

/-! ### Claim theorems -/

/-- C1: the claim that `self.mines` and `self.safes` are disjoint in every
state reachable from a fresh `MinesweeperAI` by `add_knowledge`,
`mark_mine` and `mark_safe` calls is false on the code: on a 2 by 2 board,
`add_knowledge((0,0), 3)` followed by `add_knowledge((0,1), 0)` puts
`(0,1)` in both sets, and so does the two-call sequence
`mark_mine((0,0)); mark_safe((0,0))` for the cell `(0,0)`. -/
theorem addKnowledge_breaks_disjointness :
    (0, 1) ∈ (((MinesweeperAI.init 2 2).add_knowledge (0, 0) 3).add_knowledge (0, 1) 0).mines ∧
    (0, 1) ∈ (((MinesweeperAI.init 2 2).add_knowledge (0, 0) 3).add_knowledge (0, 1) 0).safes ∧
    (0, 0) ∈ (((MinesweeperAI.init 2 2).mark_mine (0, 0)).mark_safe (0, 0)).mines ∧
    (0, 0) ∈ (((MinesweeperAI.init 2 2).mark_mine (0, 0)).mark_safe (0, 0)).safes := by
  decide

/-- C2: the claim that `add_knowledge` returns only after propagation has
reached a fixpoint is false on the code: on a 1 by 4 board, after
`add_knowledge((0,1), 1)` and `add_knowledge((0,3), 1)` the knowledge base
still holds the live sentence `{(0,0)} = 0`, whose `known_safes()` is
`{(0,0)}`, while `(0,0)` is not in `self.safes`. -/
theorem addKnowledge_not_fixpoint :
    (((MinesweeperAI.init 1 4).add_knowledge (0, 1) 1).add_knowledge (0, 3) 1).knowledge =
      [⟨{(0, 0)}, 0⟩] ∧
    Sentence.known_safes ⟨{(0, 0)}, 0⟩ = {(0, 0)} ∧
    (0, 0) ∉ (((MinesweeperAI.init 1 4).add_knowledge (0, 1) 1).add_knowledge (0, 3) 1).safes := by
  decide

/-- C3: the claim that the engine derives `{c3} = 1` by subset-difference
inference from `A = {c1,c2} = 1` and `B = {c1,c2,c3} = 2` and puts `c3`
into `self.mines` is false on the code: the deduction pass of
`add_knowledge` (its only propagation mechanism) leaves a knowledge base
holding exactly `A` and `B` completely unchanged — no sentence `{c3} = 1`
appears and `c3` is not marked a mine. -/
theorem no_subset_inference :
    MinesweeperAI.knowledgeLoop
        ⟨1, 5, ∅, ∅, ∅, [⟨{(0, 0), (0, 1)}, 1⟩, ⟨{(0, 0), (0, 1), (0, 2)}, 2⟩]⟩ =
      ⟨1, 5, ∅, ∅, ∅, [⟨{(0, 0), (0, 1)}, 1⟩, ⟨{(0, 0), (0, 1), (0, 2)}, 2⟩]⟩ ∧
    (⟨{(0, 2)}, 1⟩ : Sentence) ∉
      (MinesweeperAI.knowledgeLoop
        ⟨1, 5, ∅, ∅, ∅, [⟨{(0, 0), (0, 1)}, 1⟩, ⟨{(0, 0), (0, 1), (0, 2)}, 2⟩]⟩).knowledge ∧
    (0, 2) ∉
      (MinesweeperAI.knowledgeLoop
        ⟨1, 5, ∅, ∅, ∅, [⟨{(0, 0), (0, 1)}, 1⟩, ⟨{(0, 0), (0, 1), (0, 2)}, 2⟩]⟩).mines := by
  decide

/-- C4: the claim that a repeated `add_knowledge` call with the same
already-probed cell and count is a no-op is false on the code: on a 1 by 4
board, calling `add_knowledge((0,1), 1)` twice appends a duplicate of the
sentence `{(0,0),(0,2)} = 1` to the knowledge base, so the state after the
second call differs from the state before it. -/
theorem addKnowledge_not_idempotent :
    ((MinesweeperAI.init 1 4).add_knowledge (0, 1) 1).knowledge =
      [⟨{(0, 0), (0, 2)}, 1⟩] ∧
    (((MinesweeperAI.init 1 4).add_knowledge (0, 1) 1).add_knowledge (0, 1) 1).knowledge =
      [⟨{(0, 0), (0, 2)}, 1⟩, ⟨{(0, 0), (0, 2)}, 1⟩] ∧
    ((MinesweeperAI.init 1 4).add_knowledge (0, 1) 1).add_knowledge (0, 1) 1 ≠
      (MinesweeperAI.init 1 4).add_knowledge (0, 1) 1 := by
  decide

/-- C5: the claim that `add_knowledge` rejects an out-of-range hazard count
before any mutation is false on the code: on a fresh 1 by 2 board, where
`(0,0)` has a single unresolved neighbour, both `add_knowledge((0,0), 5)`
and `add_knowledge((0,0), -1)` run to completion and mutate the state
(adding to `moves_made` and `safes` and appending a sentence with the
out-of-range count). -/
theorem addKnowledge_no_validation :
    ((MinesweeperAI.init 1 2).add_knowledge (0, 0) 5).moves_made = {(0, 0)} ∧
    ((MinesweeperAI.init 1 2).add_knowledge (0, 0) 5).knowledge = [⟨{(0, 1)}, 5⟩] ∧
    (MinesweeperAI.init 1 2).add_knowledge (0, 0) 5 ≠ MinesweeperAI.init 1 2 ∧
    (MinesweeperAI.init 1 2).add_knowledge (0, 0) (-1) ≠ MinesweeperAI.init 1 2 := by
  decide

/-- C6: the claim that every live sentence has a cell set disjoint from
`self.mines ∪ self.safes` in every reachable state is false on the code: on
a 2 by 3 board, after `add_knowledge((0,0), 1)` and `add_knowledge((0,2), 0)`
the sentence `{(0,1),(1,0),(1,1)} = 1` is still live while `(0,1)` (and
`(1,1)`) is in `self.safes` — the `self.safes.update(known_safes)` path
never purges cells from the other sentences. -/
theorem live_sentence_not_purged :
    (((MinesweeperAI.init 2 3).add_knowledge (0, 0) 1).add_knowledge (0, 2) 0).knowledge =
      [⟨{(0, 1), (1, 0), (1, 1)}, 1⟩] ∧
    (0, 1) ∈ (⟨{(0, 1), (1, 0), (1, 1)}, 1⟩ : Sentence).cells ∧
    (0, 1) ∈ (((MinesweeperAI.init 2 3).add_knowledge (0, 0) 1).add_knowledge (0, 2) 0).safes := by
  decide

/-- C7: across any sequence of `add_knowledge` calls, `self.mines` and
`self.safes` only grow: every cell in either set before the sequence is
still a member afterwards. -/
theorem mines_safes_monotone (s : MinesweeperAI) (calls : List (Cell × ℤ)) :
    s.mines ⊆ (runCalls s calls).mines ∧ s.safes ⊆ (runCalls s calls).safes := by
  induction calls generalizing s with
  | nil =>
      exact ⟨Finset.Subset.refl _, Finset.Subset.refl _⟩
  | cons p calls ih =>
      refine ⟨Finset.Subset.trans (add_knowledge_mono s p.1 p.2).1 ?_,
        Finset.Subset.trans (add_knowledge_mono s p.1 p.2).2 ?_⟩
      · exact (ih (s.add_knowledge p.1 p.2)).1
      · exact (ih (s.add_knowledge p.1 p.2)).2

/-- C7 witness: a mine recorded before an `add_knowledge` call is still
recorded after it. -/
theorem mines_safes_monotone_witness :
    (0, 0) ∈ (runCalls ⟨1, 2, ∅, {(0, 0)}, ∅, []⟩ [((0, 1), 0)]).mines :=
  (mines_safes_monotone ⟨1, 2, ∅, {(0, 0)}, ∅, []⟩ [((0, 1), 0)]).1 (by decide)

/-- C8: `Sentence.known_mines` returns the whole cell set exactly when the
count equals the number of cells and the empty set otherwise, and
`Sentence.known_safes` returns the whole cell set exactly when the count is
zero and the empty set otherwise (both are pure functions of the
sentence). -/
theorem known_mines_known_safes_spec (s : Sentence) :
    s.known_mines = (if (s.cells.card : ℤ) = s.count then s.cells else ∅) ∧
    s.known_safes = (if s.count = 0 then s.cells else ∅) := by
  constructor
  · unfold Sentence.known_mines
    split_ifs with h
    · rw [foldl_insert_eq_union, cellList_toFinset, Finset.empty_union]
    · rfl
  · unfold Sentence.known_safes
    split_ifs with h
    · rw [foldl_insert_eq_union, cellList_toFinset, Finset.empty_union]
    · rfl

/-- C9: the claim that `make_random_move` returns `None` exactly when
`all_cells - moves_made - mines` is empty (and otherwise terminates with a
cell from that set) is false on the code: on a 1 by 2 board, after
`add_knowledge((0,0), 1)` the candidate set is empty, yet since
`len(self.moves_made)` is 1 and not the hardcoded 56 the function enters
its retry loop, where every draw lands in `moves_made | mines` — for every
randomness stream and every number of draws the call has still not
returned. -/
theorem makeRandomMove_diverges :
    ((allCells 1 2) \ ((MinesweeperAI.init 1 2).add_knowledge (0, 0) 1).moves_made) \
      ((MinesweeperAI.init 1 2).add_knowledge (0, 0) 1).mines = ∅ ∧
    ∀ (rand : ℕ → ℕ × ℕ) (fuel : ℕ),
      ((MinesweeperAI.init 1 2).add_knowledge (0, 0) 1).make_random_move rand fuel = none := by
  constructor
  · decide
  · intro rand fuel
    have hs : (MinesweeperAI.init 1 2).add_knowledge (0, 0) 1 =
        ⟨1, 2, {(0, 0)}, {(0, 1)}, {(0, 0)}, []⟩ := by decide
    rw [hs]
    unfold MinesweeperAI.make_random_move
    have h56 : ¬((⟨1, 2, {(0, 0)}, {(0, 1)}, {(0, 0)}, []⟩ :
        MinesweeperAI).moves_made.card = 56) := by decide
    rw [if_neg h56]
    have hloop : ∀ (n k : ℕ),
        MinesweeperAI.randomMoveLoop ⟨1, 2, {(0, 0)}, {(0, 1)}, {(0, 0)}, []⟩ rand n k =
          none := by
      intro n
      induction n with
      | zero =>
          intro k
          rfl
      | succ m ih =>
          intro k
          have hm : ((((rand k).1 % 1 : ℕ) : ℤ), (((rand k).2 % 2 : ℕ) : ℤ)) ∈
              (({(0, 0)} : Finset Cell) ∪ {(0, 1)}) := by
            rcases Nat.mod_two_eq_zero_or_one ((rand k).2) with h | h <;>
              rw [Nat.mod_one, h] <;> decide
          simp only [MinesweeperAI.randomMoveLoop]
          split
          · exact ih (k + 1)
          · rename_i hneg
            exact absurd hm hneg
    rw [hloop fuel 0]
    rfl

/-- C10: `make_safe_move` never mutates the state — the candidate set is a
copy of `self.safes` so the `pop` touches only the copy — and a non-`None`
result is always a member of `self.safes` that is not in
`self.moves_made`. -/
theorem makeSafeMove_frame (s : MinesweeperAI) (choose : Finset Cell → Cell)
    (hchoose : ∀ t : Finset Cell, t ≠ ∅ → choose t ∈ t) :
    (s.make_safe_move choose).2 = s ∧
    ∀ c : Cell, (s.make_safe_move choose).1 = some c →
      c ∈ s.safes ∧ c ∉ s.moves_made := by
  unfold MinesweeperAI.make_safe_move
  dsimp only
  split_ifs with h
  · exact ⟨rfl, fun c hc => False.elim hc⟩
  · refine ⟨rfl, fun c hc => ?_⟩
    have hne : s.safes \ s.moves_made ≠ ∅ := fun he => h (by rw [he]; exact Finset.card_empty)
    have hmem := hchoose _ hne
    have hc2 : choose (s.safes \ s.moves_made) = c := Option.some.inj hc
    rw [← hc2]
    exact Finset.mem_sdiff.mp hmem

/-- C10 witness: on a concrete state with one known safe unprobed cell,
`make_safe_move` leaves the state unchanged and returns that cell, which is
in `safes` and not in `moves_made`. -/
theorem makeSafeMove_frame_witness :
    ((⟨1, 2, ∅, ∅, {(0, 0)}, []⟩ : MinesweeperAI).make_safe_move chooseHead).2 =
      ⟨1, 2, ∅, ∅, {(0, 0)}, []⟩ ∧
    ((0, 0) ∈ (⟨1, 2, ∅, ∅, {(0, 0)}, []⟩ : MinesweeperAI).safes ∧
      (0, 0) ∉ (⟨1, 2, ∅, ∅, {(0, 0)}, []⟩ : MinesweeperAI).moves_made) :=
  ⟨(makeSafeMove_frame ⟨1, 2, ∅, ∅, {(0, 0)}, []⟩ chooseHead chooseHead_mem).1,
   (makeSafeMove_frame ⟨1, 2, ∅, ∅, {(0, 0)}, []⟩ chooseHead chooseHead_mem).2 (0, 0)
     (by decide)⟩
